import Mathlib

/-!
Verification of the oil_project data pipeline.

The development shallowly embeds the parts of the code base that the
statements below are about:

* `scripts/utils.py` — column-name normalization (`clean_column_names`);
* `scripts/cleaning.py` — missing-value imputation (`handle_missing_values`),
  IQR outlier clipping (`handle_outliers`), and the cleaning `main` pipeline;
* `main.py` — `get_latest_cleaned_file` and the orchestrating `main`;
* `scripts/modeling.py` — `preprocess_for_modeling` and the order of the
  modeling `main`;
* `scripts/dashboard.py` — the `update_dashboard` filter callback together
  with `create_kpis` / `create_insights`.

Strings are modelled as lists of Unicode code points (`List Nat`); machine
floats are modelled by exact rationals, with `Option ℚ` standing for a
float column whose missing entries (`NaN`) are `none`.  Python's `NaN`
results of `mean`/`quantile` on empty data are modelled by the explicit
empty-case guards of the corresponding definitions, mirroring the fact that
`fillna(NaN)` and `clip(NaN, NaN)` leave a column unchanged.
-/

/-- Code points of a Lean string literal, used to write down concrete
column and file names in the model. -/
def str2l (s : String) : List Nat := s.data.map Char.toNat

/-! ## scripts/utils.py — clean_column_names

`df.columns = [re.sub(r'[^a-zA-Z0-9_]', '_', col.lower().strip()) for col in df.columns]`

ASCII model of `str.lower`, `str.strip` and the character class
`[^a-zA-Z0-9_]` of the regex. -/

/-- `str.lower` on one code point (ASCII case mapping). -/
def pyToLower (n : Nat) : Nat := if 65 ≤ n ∧ n ≤ 90 then n + 32 else n

/-- The whitespace code points removed by `str.strip`. -/
def pySpace (n : Nat) : Bool :=
  n == 32 || n == 9 || n == 10 || n == 13 || n == 11 || n == 12

/-- `str.strip`: drop leading and trailing whitespace. -/
def pyStrip (l : List Nat) : List Nat :=
  ((l.dropWhile pySpace).reverse.dropWhile pySpace).reverse

/-- A code point matched by the regex class `[a-zA-Z0-9_]`. -/
def keptChar (n : Nat) : Bool :=
  (97 ≤ n && n ≤ 122) || (65 ≤ n && n ≤ 90) || (48 ≤ n && n ≤ 57) || n == 95

/-- `re.sub(r'[^a-zA-Z0-9_]', '_', s)`: every non-matching code point
becomes `_` (code point 95). -/
def subNonWord (l : List Nat) : List Nat :=
  l.map (fun n => if keptChar n then n else 95)

/-- One column name through `col.lower().strip()` followed by the
underscore substitution, exactly as in `clean_column_names`. -/
def clean_column_name (l : List Nat) : List Nat :=
  subNonWord (pyStrip (l.map pyToLower))

/-- `clean_column_names` applied to the list of column names of a frame. -/
def clean_column_names (names : List (List Nat)) : List (List Nat) :=
  names.map clean_column_name

/-! ## scripts/cleaning.py — handle_missing_values (numeric part)

`df[col] = df[col].fillna(df[col].mean())` for each numeric column. -/

/-- The non-null entries of a column, in order (what pandas skips NaN to). -/
def colNonNulls (c : List (Option ℚ)) : List ℚ := c.filterMap id

/-- Arithmetic mean of a list of rationals (`Series.mean` over the
non-null entries; the empty case is guarded by callers, as pandas
returns NaN there). -/
def listMean (l : List ℚ) : ℚ := l.sum / l.length

/-- `Series.mean()` with NaN skipped. -/
def colMean (c : List (Option ℚ)) : ℚ := listMean (colNonNulls c)

/-- `df[col].fillna(df[col].mean())`: when the column has no non-null
entry the mean is NaN and `fillna` changes nothing; otherwise every null
becomes the column mean. -/
def fillMean (c : List (Option ℚ)) : List (Option ℚ) :=
  if colNonNulls c = [] then c
  else c.map (fun o => some (o.getD (colMean c)))

/-! ## scripts/cleaning.py — handle_outliers (IQR method)

`Q1 = df[col].quantile(0.25)`, `Q3 = df[col].quantile(0.75)`,
`df[col] = df[col].clip(Q1 - 1.5*IQR, Q3 + 1.5*IQR)`. -/

/-- Sort a list of rationals ascending (order statistics of a series). -/
def sortQ (l : List ℚ) : List ℚ := l.insertionSort (· ≤ ·)

/-- Linear-interpolation quantile of an ascending list, pandas/numpy
`interpolation='linear'`: position `h = q·(n−1)`, result
`s[⌊h⌋] + (h−⌊h⌋)·(s[⌊h⌋+1] − s[⌊h⌋])`. -/
def quantileSorted (s : List ℚ) (q : ℚ) : ℚ :=
  let h : ℚ := q * ((s.length : ℚ) - 1)
  let k : Nat := ⌊h⌋.toNat
  let a := s.getD k 0
  let b := s.getD (k + 1) a
  a + (h - (k : ℚ)) * (b - a)

/-- `Series.quantile(q)` (NaN entries are skipped by the caller). -/
def quantileQ (l : List ℚ) (q : ℚ) : ℚ := quantileSorted (sortQ l) q

/-- `Q1 = df[col].quantile(0.25)` over the non-null entries. -/
def colQ1 (c : List (Option ℚ)) : ℚ := quantileQ (colNonNulls c) (1/4)

/-- `Q3 = df[col].quantile(0.75)` over the non-null entries. -/
def colQ3 (c : List (Option ℚ)) : ℚ := quantileQ (colNonNulls c) (3/4)

/-- `lower_bound = Q1 - 1.5 * IQR`. -/
def lowerFence (c : List (Option ℚ)) : ℚ := colQ1 c - 3/2 * (colQ3 c - colQ1 c)

/-- `upper_bound = Q3 + 1.5 * IQR`. -/
def upperFence (c : List (Option ℚ)) : ℚ := colQ3 c + 3/2 * (colQ3 c - colQ1 c)

/-- `clip(lower, upper)` on one value: numpy applies the lower bound
first, then the upper bound. -/
def clipVal (lo hi x : ℚ) : ℚ := min hi (max lo x)

/-- One pass of the `method="IQR"` branch of `handle_outliers` on a single
column: clip every non-null entry to the Tukey fence of the column; a
column with no non-null entry has NaN quantiles and `clip(NaN, NaN)`
changes nothing. -/
def clipIQR (c : List (Option ℚ)) : List (Option ℚ)  :=
  if colNonNulls c = [] then c
  else c.map (fun o => o.map (clipVal (lowerFence c) (upperFence c)))


/-! ## scripts/cleaning.py — main

Column-major model of a data frame: the originally-numeric columns and
the non-numeric (categorical / date) columns, each a named list of
per-row values of equal length. -/

structure Table where
  numeric : List (List Nat × List (Option ℚ))
  cats : List (List Nat × List (Option String))

/-- Number of rows of a (well-formed) table. -/
def nRows (t : Table) : Nat :=
  ((t.numeric.map (fun p => p.2.length)) ++ (t.cats.map (fun p => p.2.length))).foldr Nat.max 0

/-- `df = clean_column_names(df)`: normalize every column name. -/
def renameTable (t : Table) : Table :=
  { numeric := t.numeric.map (fun p => (clean_column_name p.1, p.2)),
    cats := t.cats.map (fun p => (clean_column_name p.1, p.2)) }

/-- `pd.to_datetime(df['date'], errors='coerce')` on the `date` column, if
present: each value is re-parsed, unparseable or missing values become
null.  The parser itself is a parameter of the model. -/
def parseDatesTable (parse : String → Option String) (t : Table) : Table :=
  { t with cats := t.cats.map (fun p =>
      if p.1 = str2l "date" then (p.1, p.2.map (fun o => o.bind parse)) else p) }

/-- `df.dropna(subset=non_numeric_cols)` keeps row `i` iff every
non-numeric column is non-null there. -/
def keepRow (cats : List (List Nat × List (Option String))) (i : Nat) : Bool :=
  cats.all (fun p => (p.2.getD i none).isSome)

/-- The boolean row mask of `dropna(subset=non_numeric_cols)`. -/
def rowMask (t : Table) : List Bool :=
  (List.range (nRows t)).map (keepRow t.cats)

/-- Restrict a column to the rows selected by a mask. -/
def applyMask {a : Type} : List Bool → List a → List a
  | b :: bs, x :: xs => if b then x :: applyMask bs xs else applyMask bs xs
  | _, _ => []

/-- `handle_missing_values`: mean-fill every numeric column, then drop the
rows that have a null in some non-numeric column. -/
def handle_missing_values (t : Table) : Table :=
  let filled : Table := { t with numeric := t.numeric.map (fun p => (p.1, fillMean p.2)) }
  let mask := rowMask filled
  { numeric := filled.numeric.map (fun p => (p.1, applyMask mask p.2)),
    cats := filled.cats.map (fun p => (p.1, applyMask mask p.2)) }

/-- The fixed list of columns passed to `handle_outliers` by the cleaning
`main` (note `pump_efficiency__`, the normalized form of
`Pump Efficiency (%)`). -/
def outlierColumns : List (List Nat) :=
  [str2l "oil_production_bbl", str2l "gas_production_mcf",
   str2l "water_production_bbl", str2l "wellhead_pressure_psi",
   str2l "tubing_pressure_psi", str2l "choke_size_in",
   str2l "pump_efficiency__"]

/-- `handle_outliers(df, numeric_cols, method="IQR")` after `main` filtered
the column list down to the columns present: IQR-clip every numeric
column whose name is in the fixed list. -/
def handle_outliers (t : Table) : Table :=
  { t with numeric := t.numeric.map (fun p =>
      if p.1 ∈ outlierColumns then (p.1, clipIQR p.2) else p) }

/-- The cleaning `main` after loading: normalize names, parse dates,
handle missing values, clip outliers.  (Persisting to CSV does not change
the table.) -/
def cleaning_main (parse : String → Option String) (t : Table) : Table :=
  handle_outliers (handle_missing_values (parseDatesTable parse (renameTable t)))

/-- Does some originally-numeric column still contain a null? -/
def hasNumericNull (t : Table) : Bool :=
  t.numeric.any (fun p => p.2.any (fun o => o.isNone))

/-! ## main.py — get_latest_cleaned_file

`glob.glob(os.path.join(data_dir, "cleaned_oil_field_production_data_*.csv"))`
followed by `max(files, key=os.path.getmtime)`.  A directory is modelled
as a list of (file name, modification time) pairs. -/

/-- Does the pattern list occur at the start of the name? -/
def startsWithL : List Nat → List Nat → Bool
  | [], _ => true
  | _ :: _, [] => false
  | p :: ps, c :: cs => p == c && startsWithL ps cs

/-- Does the pattern list occur at the end of the name? -/
def endsWithL (p l : List Nat) : Bool := startsWithL p.reverse l.reverse

/-- The names matched by the glob pattern
`cleaned_oil_field_production_data_*.csv`: prefix, suffix, and enough
room for both (`*` may match the empty string). -/
def cleanedFilePat (name : List Nat) : Bool :=
  startsWithL (str2l "cleaned_oil_field_production_data_") name &&
  endsWithL (str2l ".csv") name &&
  decide ((str2l "cleaned_oil_field_production_data_").length + (str2l ".csv").length
    ≤ name.length)

/-- Python `max(files, key=os.path.getmtime)`: scan left to right, keep
the current best, replace it only on a strictly larger key (so ties keep
the earliest element). -/
def maxByMtime (f : List Nat × Nat) (fs : List (List Nat × Nat)) : List Nat × Nat :=
  fs.foldl (fun best g => if best.2 < g.2 then g else best) f

/-- `get_latest_cleaned_file`: the matching file with the greatest
modification time, or `none` when no file matches. -/
def get_latest_cleaned_file (dir : List (List Nat × Nat)) : Option (List Nat) :=
  match dir.filter (fun f => cleanedFilePat f.1) with
  | [] => none
  | f :: fs => some (maxByMtime f fs).1

/-! ## main.py — main (the orchestrator) -/

inductive Step where
  | clean | eda | model | dashboard
deriving DecidableEq, Repr, BEq

/-- Which steps would raise, and whether a cleaned file is found when
`get_latest_cleaned_file` runs. -/
structure PipelineEnv where
  cleanFails : Bool
  edaFails : Bool
  modelFails : Bool
  dashboardFails : Bool
  cleanedFileExists : Bool

inductive PipelineEvent where
  | ran (s : Step)
  | caught (s : Step)
  | noCleanedFile
deriving DecidableEq, Repr

def stepFails (env : PipelineEnv) : Step → Bool
  | .clean => env.cleanFails
  | .eda => env.edaFails
  | .model => env.modelFails
  | .dashboard => env.dashboardFails

/-- The orchestrating `main` of `main.py`, as the sequence of observable
events: each `try` block emits `ran s`, its `except` branch emits
`caught s` and returns, and a missing cleaned file emits `noCleanedFile`
and returns before eda/model/dashboard. -/
def orchestrator_main (steps : List Step) (env : PipelineEnv) : List PipelineEvent :=
  if steps.contains Step.clean && env.cleanFails then
    [.ran .clean, .caught .clean]
  else
    let t0 : List PipelineEvent :=
      if steps.contains Step.clean then [.ran .clean] else []
    if steps.contains Step.eda || steps.contains Step.model ||
        steps.contains Step.dashboard then
      if !env.cleanedFileExists then t0 ++ [.noCleanedFile]
      else if steps.contains Step.eda && env.edaFails then
        t0 ++ [.ran .eda, .caught .eda]
      else
        let t1 := t0 ++ (if steps.contains Step.eda then [PipelineEvent.ran .eda] else [])
        if steps.contains Step.model && env.modelFails then
          t1 ++ [.ran .model, .caught .model]
        else
          let t2 := t1 ++ (if steps.contains Step.model then [PipelineEvent.ran .model] else [])
          if steps.contains Step.dashboard && env.dashboardFails then
            t2 ++ [.ran .dashboard, .caught .dashboard]
          else
            t2 ++ (if steps.contains Step.dashboard then [PipelineEvent.ran .dashboard] else [])
    else t0

/-- The selected steps in the fixed execution order clean, eda, model,
dashboard — determined by membership only, not by argument order. -/
def selectedInOrder (steps : List Step) : List Step :=
  [Step.clean, Step.eda, Step.model, Step.dashboard].filter (fun s => steps.contains s)

/-- The behaviour the specification describes (reference definition,
written from the spec): run the selected steps in the fixed order; a
failing step is run, caught, and stops everything after it. -/
def claimedTrace (env : PipelineEnv) : List Step → List PipelineEvent
  | [] => []
  | s :: rest =>
    if stepFails env s then [.ran s, .caught s]
    else .ran s :: claimedTrace env rest

/-! ## scripts/modeling.py -/

/-- The feature list of `preprocess_for_modeling`. -/
def modelFeatures : List (List Nat) :=
  [str2l "gas_production_mcf", str2l "water_production_bbl",
   str2l "wellhead_pressure_psi", str2l "tubing_pressure_psi",
   str2l "choke_size_in", str2l "pump_efficiency__", str2l "field_name"]

/-- `preprocess_for_modeling`, at the level of the column set it needs:
keep the features that are present; raise `ValueError` when the target
`oil_production_bbl` is absent.  Returns the selected model columns. -/
def preprocess_for_modeling (cols : List (List Nat)) : Except String (List (List Nat)) :=
  let features := modelFeatures.filter (fun c => cols.contains c)
  if cols.contains (str2l "oil_production_bbl") then
    Except.ok (features ++ [str2l "oil_production_bbl"])
  else
    Except.error "target column oil_production_bbl missing"

inductive ModelPhase where
  | split | fit
deriving DecidableEq, Repr

/-- The modeling `main` after loading: preprocess, then (only on success)
split and fit.  The second component records which training phases were
reached. -/
def modeling_main (cols : List (List Nat)) : Except String Unit × List ModelPhase :=
  match preprocess_for_modeling cols with
  | .error e => (.error e, [])
  | .ok _ => (.ok (), [ModelPhase.split, ModelPhase.fit])

/-! ## scripts/dashboard.py -/

/-- One row of the table the dashboard keeps in memory.  The `date`
entry is `none` for a value `pd.to_datetime(..., errors='coerce')` turned
into `NaT`; dates are modelled as day numbers. -/
structure DRow where
  field_name : String
  well_id : Nat
  status : String
  date : Option Int
  oil_production_bbl : ℚ
  wellhead_pressure_psi : ℚ
deriving DecidableEq, Repr

/-- The filter of `update_dashboard`: restrict to the selected field
unless it is `'all'`, then to the rows whose date lies in the range
(a `NaT` date compares false on both bounds and is dropped). -/
def filter_dashboard (df : List DRow) (field : String) (s e : Int) : List DRow :=
  let d1 := if field ≠ "all" then df.filter (fun r => r.field_name = field) else df
  d1.filter (fun r => match r.date with
    | some d => decide (s ≤ d) && decide (d ≤ e)
    | none => false)

/-- `df_filtered['oil_production_bbl'].sum()`. -/
def kpiTotalOil (df : List DRow) : ℚ := (df.map (fun r => r.oil_production_bbl)).sum

/-- `df_filtered['oil_production_bbl'].mean()` — NaN (`none`) on an empty
frame. -/
def kpiAvgOil (df : List DRow) : Option ℚ :=
  if df.length = 0 then none else some (kpiTotalOil df / df.length)

/-- `df_filtered[df_filtered['status'] == 'Active']['well_id'].nunique()`. -/
def kpiActiveWells (df : List DRow) : Nat :=
  ((df.filter (fun r => r.status = "Active")).map (fun r => r.well_id)).dedup.length

/-- `df_filtered.groupby('field_name')['oil_production_bbl'].sum()`:
per-field totals, keys sorted as pandas sorts group keys. -/
def groupSumByField (df : List DRow) : List (String × ℚ) :=
  (((df.map (fun r => r.field_name)).dedup).insertionSort (· ≤ ·)).map
    (fun f => (f, kpiTotalOil (df.filter (fun r => r.field_name = f))))

/-- `Series.idxmax()`: the first index attaining the maximum; raises
`ValueError` on an empty series. -/
def idxmaxS (l : List (String × ℚ)) : Except String String :=
  match l with
  | [] => Except.error "attempt to get argmax of an empty sequence"
  | x :: xs => Except.ok (xs.foldl (fun best y => if best.2 < y.2 then y else best) x).1

/-- Mean wellhead pressure of the filtered frame (division by the length;
only used inside the correlation sums). -/
def meanPressure (df : List DRow) : ℚ :=
  (df.map (fun r => r.wellhead_pressure_psi)).sum / df.length

/-- Mean oil production of the filtered frame. -/
def meanOil (df : List DRow) : ℚ := kpiTotalOil df / df.length

/-- The five analytical insights of `create_insights`.  The Pearson
correlation `wellhead_pressure_psi.corr(oil_production_bbl)` is kept in
square-root-free form: the correlation is `corr_num / sqrt corr_den_sq`
(pandas returns NaN, never raises, when it is undefined). -/
structure Insights where
  total_oil : ℚ
  avg_daily_oil : Option ℚ
  active_wells : Nat
  top_field : String
  corr_num : ℚ
  corr_den_sq : ℚ
deriving DecidableEq, Repr

/-- `create_insights`: the fifth sentence calls `idxmax` on the per-field
totals, which raises on an empty filtered frame. -/
def create_insights (df : List DRow) : Except String Insights :=
  match idxmaxS (groupSumByField df) with
  | .error e => .error e
  | .ok top => .ok
      { total_oil := kpiTotalOil df
        avg_daily_oil := kpiAvgOil df
        active_wells := kpiActiveWells df
        top_field := top
        corr_num := (df.map (fun r =>
          (r.wellhead_pressure_psi - meanPressure df) *
            (r.oil_production_bbl - meanOil df))).sum
        corr_den_sq := (df.map (fun r =>
          (r.wellhead_pressure_psi - meanPressure df) ^ 2)).sum *
          (df.map (fun r => (r.oil_production_bbl - meanOil df) ^ 2)).sum }

/-- What one reactive update of the dashboard produces: the filtered
frame every chart is drawn from, the three KPI cards, and the insights. -/
structure DashboardOutput where
  chart_data : List DRow
  kpi_total : ℚ
  kpi_avg : Option ℚ
  kpi_active : Nat
  insights : Insights
deriving DecidableEq, Repr

/-- The `update_dashboard` callback: filter, build charts and KPIs (which
cannot raise), then build the insights — whose failure propagates out of
the callback. -/
def update_dashboard (df : List DRow) (field : String) (s e : Int) :
    Except String DashboardOutput :=
  let d := filter_dashboard df field s e
  match create_insights d with
  | .error msg => .error msg
  | .ok ins => .ok
      { chart_data := d
        kpi_total := kpiTotalOil d
        kpi_avg := kpiAvgOil d
        kpi_active := kpiActiveWells d
        insights := ins }

/-! ## Shared list facts -/

/-- A map that fixes every member fixes the list. -/
theorem listMapSelf {α : Type} (f : α → α) :
    ∀ l : List α, (∀ x ∈ l, f x = x) → l.map f = l
  | [], _ => rfl
  | a :: l, h => by
    simp only [List.map_cons, List.cons.injEq]
    exact ⟨h a (by simp), listMapSelf f l fun x hx => h x (by simp [hx])⟩

/-- `dropWhile` keeps a list whose members all fail the predicate. -/
theorem dropWhileSelf {α : Type} (p : α → Bool) :
    ∀ l : List α, (∀ x ∈ l, p x = false) → l.dropWhile p = l
  | [], _ => rfl
  | a :: l, h => by
    simp [List.dropWhile_cons, h a (by simp)]

theorem colNonNulls_cons_some (v : ℚ) (c : List (Option ℚ)) :
    colNonNulls (some v :: c) = v :: colNonNulls c := rfl

theorem colNonNulls_cons_none (c : List (Option ℚ)) :
    colNonNulls (none :: c) = colNonNulls c := rfl

/-! ## Facts about clean_column_name (utils.py) -/

/-- The code points that can appear in a normalized column name:
lowercase letters, digits and the underscore. -/
def goodChar (m : Nat) : Prop :=
  (97 ≤ m ∧ m ≤ 122) ∨ (48 ≤ m ∧ m ≤ 57) ∨ m = 95

theorem pyToLower_not_upper (n : Nat) : ¬(65 ≤ pyToLower n ∧ pyToLower n ≤ 90) := by
  unfold pyToLower
  split <;> omega

theorem mem_pyStrip {x : Nat} {l : List Nat} (h : x ∈ pyStrip l) : x ∈ l := by
  unfold pyStrip at h
  rw [List.mem_reverse] at h
  have h2 := (List.dropWhile_sublist (l := (l.dropWhile pySpace).reverse)
    (p := pySpace)).subset h
  rw [List.mem_reverse] at h2
  exact (List.dropWhile_sublist (l := l) (p := pySpace)).subset h2

theorem goodChar_of_mem_clean {m : Nat} {l : List Nat}
    (h : m ∈ clean_column_name l) : goodChar m := by
  unfold clean_column_name subNonWord at h
  rcases List.mem_map.1 h with ⟨x, hx, rfl⟩
  have hxl : x ∈ l.map pyToLower := mem_pyStrip hx
  rcases List.mem_map.1 hxl with ⟨z, _, rfl⟩
  have hup := pyToLower_not_upper z
  by_cases hk : keptChar (pyToLower z) = true
  · rw [if_pos hk]
    simp only [keptChar, Bool.or_eq_true, Bool.and_eq_true, decide_eq_true_eq,
      beq_iff_eq] at hk
    unfold goodChar
    omega
  · rw [if_neg hk]
    unfold goodChar
    omega

theorem pyToLower_of_good {m : Nat} (h : goodChar m) : pyToLower m = m := by
  unfold goodChar at h
  unfold pyToLower
  rw [if_neg (by omega)]

theorem pySpace_of_good {m : Nat} (h : goodChar m) : pySpace m = false := by
  unfold goodChar at h
  simp only [pySpace, Bool.or_eq_false_iff, beq_eq_false_iff_ne, ne_eq]
  omega

theorem keptChar_of_good {m : Nat} (h : goodChar m) : keptChar m = true := by
  unfold goodChar at h
  simp only [keptChar, Bool.or_eq_true, Bool.and_eq_true, decide_eq_true_eq,
    beq_iff_eq]
  omega

theorem pyStrip_of_no_space {l : List Nat} (h : ∀ x ∈ l, pySpace x = false) :
    pyStrip l = l := by
  unfold pyStrip
  rw [dropWhileSelf pySpace l h]
  rw [dropWhileSelf pySpace l.reverse (fun x hx => h x (List.mem_reverse.1 hx))]
  exact List.reverse_reverse l

theorem clean_column_name_idem (l : List Nat) :
    clean_column_name (clean_column_name l) = clean_column_name l := by
  have hgood : ∀ m ∈ clean_column_name l, goodChar m :=
    fun m hm => goodChar_of_mem_clean hm
  conv_lhs => rw [clean_column_name]
  rw [listMapSelf pyToLower _ (fun x hx => pyToLower_of_good (hgood x hx))]
  rw [pyStrip_of_no_space (fun x hx => pySpace_of_good (hgood x hx))]
  unfold subNonWord
  exact listMapSelf _ _ (fun x hx => if_pos (keptChar_of_good (hgood x hx)))

/-! ## Facts about fillMean (cleaning.py, handle_missing_values) -/

theorem colNonNulls_eq_nil_of_all_none {c : List (Option ℚ)}
    (h : ∀ o ∈ c, o = none) : colNonNulls c = [] := by
  induction c with
  | nil => rfl
  | cons a c ih =>
    have ha : a = none := h a (by simp)
    subst ha
    rw [colNonNulls_cons_none]
    exact ih fun o ho => h o (by simp [ho])

/-- Sum of a mean-filled column, as a function of the original data. -/
theorem fill_sum (m : ℚ) :
    ∀ c : List (Option ℚ),
      (c.map (fun o => o.getD m)).sum
        = (colNonNulls c).sum + ((c.length : ℚ) - (colNonNulls c).length) * m
  | [] => by simp [colNonNulls]
  | some v :: c => by
    simp only [List.map_cons, List.sum_cons, colNonNulls_cons_some,
      List.length_cons, Option.getD_some]
    rw [fill_sum m c]
    push_cast
    ring
  | none :: c => by
    simp only [List.map_cons, List.sum_cons, colNonNulls_cons_none,
      List.length_cons, Option.getD_none]
    rw [fill_sum m c]
    push_cast
    ring

theorem colNonNulls_fill (m : ℚ) :
    ∀ c : List (Option ℚ),
      colNonNulls (c.map (fun o => some (o.getD m))) = c.map (fun o => o.getD m)
  | [] => rfl
  | o :: c => by
    simp only [List.map_cons, colNonNulls_cons_some]
    rw [colNonNulls_fill m c]

theorem length_colNonNulls_le (c : List (Option ℚ)) :
    (colNonNulls c).length ≤ c.length :=
  List.length_filterMap_le id c

/-! ## Claim C9 — idempotence of column-name normalization -/

/-- C9: Column-name normalization (lowercase, strip, replace any
non-alphanumeric/underscore character with `_`) is idempotent: for every
list of column names, applying `clean_column_names` twice yields the same
column names as applying it once. -/
theorem C9_clean_column_names_idempotent (names : List (List Nat)) :
    clean_column_names (clean_column_names names) = clean_column_names names := by
  unfold clean_column_names
  rw [List.map_map]
  exact List.map_congr_left fun l _ => clean_column_name_idem l

/-! ## Claim C4 — mean-fill of an entirely null column is a no-op -/

/-- C4: For every numeric column that is entirely null, the missing-value
handling of the Cleaner leaves that column unchanged: `fillna(mean)` is a
no-op and the column stays null. -/
theorem C4_fillMean_all_null_noop (c : List (Option ℚ)) (h : ∀ o ∈ c, o = none) :
    fillMean c = c := by
  unfold fillMean
  rw [if_pos (colNonNulls_eq_nil_of_all_none h)]

/-- Witness for C4 at the concrete two-row all-null column. -/
theorem C4_fillMean_all_null_noop_witness :
    (∀ o ∈ [(none : Option ℚ), none], o = none) ∧
      fillMean [(none : Option ℚ), none] = [none, none] :=
  ⟨by simp, C4_fillMean_all_null_noop [none, none] (by simp)⟩

/-! ## Claim C10 — mean-fill preserves the column mean -/

/-- C10: For every numeric column containing at least one non-null value,
filling its nulls with the column mean (computed over the non-null
values, in exact arithmetic) leaves the column's mean unchanged. -/
theorem C10_fillMean_preserves_mean (c : List (Option ℚ))
    (h : colNonNulls c ≠ []) :
    listMean (colNonNulls (fillMean c)) = listMean (colNonNulls c) := by
  unfold fillMean
  rw [if_neg h, colNonNulls_fill]
  have hk : (0:ℚ) < ((colNonNulls c).length : ℚ) := by
    exact_mod_cast List.length_pos.2 h
  have hn : (0:ℚ) < (c.length : ℚ) := by
    exact_mod_cast lt_of_lt_of_le (List.length_pos.2 h) (length_colNonNulls_le c)
  unfold listMean
  rw [fill_sum, List.length_map]
  unfold colMean listMean
  field_simp
  ring

/-- Witness for C10 at the column `[1, null]`. -/
theorem C10_fillMean_preserves_mean_witness :
    colNonNulls [some (1:ℚ), none] ≠ [] ∧
      listMean (colNonNulls (fillMean [some (1:ℚ), none]))
        = listMean (colNonNulls [some (1:ℚ), none]) :=
  ⟨by decide, C10_fillMean_preserves_mean _ (by decide)⟩

/-! ## Claim C7 — missing target column aborts the Modeler -/

/-- C7: For every input table without an `oil_production_bbl` column, the
Modeler raises a `ValueError` in `preprocess_for_modeling`, and neither
the train/test split nor a model fit is ever reached. -/
theorem C7_missing_target_errors (cols : List (List Nat))
    (h : cols.contains (str2l "oil_production_bbl") = false) :
    modeling_main cols
      = (Except.error "target column oil_production_bbl missing", []) := by
  have h2 : ¬(str2l "oil_production_bbl" ∈ cols) := by simpa using h
  simp [modeling_main, preprocess_for_modeling, h2]

/-- Witness for C7 at a table having only the gas column. -/
theorem C7_missing_target_errors_witness :
    ([str2l "gas_production_mcf"].contains (str2l "oil_production_bbl") = false) ∧
      modeling_main [str2l "gas_production_mcf"]
        = (Except.error "target column oil_production_bbl missing", []) :=
  ⟨by decide, C7_missing_target_errors _ (by decide)⟩

/-! ## Claim C2 — get_latest_cleaned_file on the two dated files -/

/-- C2 counterexample: with exactly the 20250101 and 20250731 files
present but the 20250101 file modified more recently, the function
returns the 20250101 file — `max` is taken over the modification time,
not over the date in the file name, so the claim as stated fails. -/
theorem C2_counterexample :
    get_latest_cleaned_file
        [(str2l "cleaned_oil_field_production_data_20250101.csv", 100),
         (str2l "cleaned_oil_field_production_data_20250731.csv", 50)]
      ≠ some (str2l "cleaned_oil_field_production_data_20250731.csv") := by
  decide

/-- C2 amended: on a directory with exactly the two files
`cleaned_oil_field_production_data_20250101.csv` and
`cleaned_oil_field_production_data_20250731.csv`,
`get_latest_cleaned_file` returns the 20250731 file whenever its
modification time is the more recent of the two (as when each file was
produced on the date in its name). -/
theorem C2_latest_by_mtime (m1 m2 : Nat) (h : m1 < m2) :
    get_latest_cleaned_file
        [(str2l "cleaned_oil_field_production_data_20250101.csv", m1),
         (str2l "cleaned_oil_field_production_data_20250731.csv", m2)]
      = some (str2l "cleaned_oil_field_production_data_20250731.csv") := by
  have hp1 : cleanedFilePat (str2l "cleaned_oil_field_production_data_20250101.csv")
      = true := by decide
  have hp2 : cleanedFilePat (str2l "cleaned_oil_field_production_data_20250731.csv")
      = true := by decide
  simp [get_latest_cleaned_file, List.filter, hp1, hp2, maxByMtime, h]

/-- Witness for C2 (amended) at modification times 0 and 1. -/
theorem C2_latest_by_mtime_witness :
    0 < 1 ∧
      get_latest_cleaned_file
          [(str2l "cleaned_oil_field_production_data_20250101.csv", 0),
           (str2l "cleaned_oil_field_production_data_20250731.csv", 1)]
        = some (str2l "cleaned_oil_field_production_data_20250731.csv") :=
  ⟨by decide, C2_latest_by_mtime 0 1 (by decide)⟩

/-! ## Claim C8 — orchestrator order and abort-on-failure -/

/-- C8: For every multiset of selected steps (in any CLI argument order)
and any failure pattern, as long as a cleaned file is found, the
orchestrator runs exactly the selected steps in the fixed order clean,
eda, model, dashboard; a raising step is caught and nothing selected
after it runs.  `claimedTrace ∘ selectedInOrder` is the reference
behaviour written from the spec, and it depends only on membership, so
the CLI argument order is irrelevant. -/
theorem C8_orchestrator_order_and_abort (steps : List Step) (env : PipelineEnv)
    (h : env.cleanedFileExists = true) :
    orchestrator_main steps env = claimedTrace env (selectedInOrder steps) := by
  cases hc : steps.contains Step.clean <;>
    cases he : steps.contains Step.eda <;>
      cases hm : steps.contains Step.model <;>
        cases hd : steps.contains Step.dashboard <;>
          cases f1 : env.cleanFails <;>
            cases f2 : env.edaFails <;>
              cases f3 : env.modelFails <;>
                cases f4 : env.dashboardFails <;>
  simp [orchestrator_main, claimedTrace, selectedInOrder, stepFails,
    hc, he, hm, hd, f1, f2, f3, f4, h, List.filter]

/-- Witness for C8: steps given in the order model-then-clean, with the
model step failing. -/
theorem C8_orchestrator_order_and_abort_witness :
    (PipelineEnv.mk false false true false true).cleanedFileExists = true ∧
      orchestrator_main [Step.model, Step.clean]
          (PipelineEnv.mk false false true false true)
        = claimedTrace (PipelineEnv.mk false false true false true)
            (selectedInOrder [Step.model, Step.clean]) :=
  ⟨rfl, C8_orchestrator_order_and_abort [Step.model, Step.clean] _ rfl⟩

/-! ## Order facts about the linear-interpolation quantile -/

/-- Unfolding lemma for `quantileSorted`. -/
theorem quantileSorted_eq (s : List ℚ) (q : ℚ) :
    quantileSorted s q
      = s.getD (⌊q * ((s.length : ℚ) - 1)⌋.toNat) 0
        + (q * ((s.length : ℚ) - 1) - ((⌊q * ((s.length : ℚ) - 1)⌋.toNat : ℚ)))
          * (s.getD (⌊q * ((s.length : ℚ) - 1)⌋.toNat + 1)
              (s.getD (⌊q * ((s.length : ℚ) - 1)⌋.toNat) 0)
            - s.getD (⌊q * ((s.length : ℚ) - 1)⌋.toNat) 0) := rfl

theorem floorToNat_le {x : ℚ} (hx : 0 ≤ x) : ((⌊x⌋.toNat : ℚ)) ≤ x := by
  have h0 : (0:ℤ) ≤ ⌊x⌋ := Int.floor_nonneg.2 hx
  have h1 : ((⌊x⌋.toNat : ℤ) : ℚ) = ((⌊x⌋ : ℤ) : ℚ) := by
    rw [Int.toNat_of_nonneg h0]
  have h2 : ((⌊x⌋.toNat : ℚ)) = ((⌊x⌋ : ℚ)) := by exact_mod_cast h1
  rw [h2]
  exact Int.floor_le x

theorem lt_floorToNat_add_one {x : ℚ} (hx : 0 ≤ x) : x < (⌊x⌋.toNat : ℚ) + 1 := by
  have h0 : (0:ℤ) ≤ ⌊x⌋ := Int.floor_nonneg.2 hx
  have h1 : ((⌊x⌋.toNat : ℤ) : ℚ) = ((⌊x⌋ : ℤ) : ℚ) := by
    rw [Int.toNat_of_nonneg h0]
  have h2 : ((⌊x⌋.toNat : ℚ)) = ((⌊x⌋ : ℚ)) := by exact_mod_cast h1
  rw [h2]
  exact Int.lt_floor_add_one x

theorem floorToNat_le_of_le {x y : ℚ} (h : x ≤ y) : ⌊x⌋.toNat ≤ ⌊y⌋.toNat :=
  Int.toNat_le_toNat (Int.floor_le_floor h)

theorem floorToNat_lt_of_le {x : ℚ} {n : Nat} (hx : 0 ≤ x) (hxn : x ≤ (n : ℚ) - 1)
    (_hn : 1 ≤ n) : ⌊x⌋.toNat < n := by
  have h1 : ((⌊x⌋.toNat : ℚ)) < (n : ℚ) := by
    have := floorToNat_le hx
    linarith
  exact_mod_cast h1

/-- On a sorted list, entries at in-range positions are monotone in the
position, whatever defaults are supplied. -/
theorem sorted_getD_le {s : List ℚ} (hs : s.Sorted (· ≤ ·)) {i j : Nat}
    (hij : i ≤ j) (hj : j < s.length) (d1 d2 : ℚ) : s.getD i d1 ≤ s.getD j d2 := by
  have hi : i < s.length := Nat.lt_of_le_of_lt hij hj
  rw [List.getD_eq_getElem s d1 hi, List.getD_eq_getElem s d2 hj]
  rcases eq_or_lt_of_le hij with rfl | hlt
  · exact le_refl _
  · have h := hs.rel_get_of_lt (a := ⟨i, hi⟩) (b := ⟨j, hj⟩) (Fin.mk_lt_mk.2 hlt)
    simpa [List.get_eq_getElem] using h

/-- The linear-interpolation quantile is monotone in the requested
quantile on a sorted nonempty list. -/
theorem quantileSorted_mono {s : List ℚ} (hs : s.Sorted (· ≤ ·)) (hne : s ≠ [])
    {qa qb : ℚ} (h0 : 0 ≤ qa) (hab : qa ≤ qb) (h1 : qb ≤ 1) :
    quantileSorted s qa ≤ quantileSorted s qb := by
  have hn : 1 ≤ s.length := List.length_pos.2 hne
  have hn1 : (0:ℚ) ≤ (s.length : ℚ) - 1 := by
    have h : (1:ℚ) ≤ (s.length : ℚ) := by exact_mod_cast hn
    linarith
  rw [quantileSorted_eq, quantileSorted_eq]
  set hA := qa * ((s.length : ℚ) - 1) with hA_def
  set hB := qb * ((s.length : ℚ) - 1) with hB_def
  have hA0 : 0 ≤ hA := mul_nonneg h0 hn1
  have hB0 : 0 ≤ hB := mul_nonneg (h0.trans hab) hn1
  have hABle : hA ≤ hB := mul_le_mul_of_nonneg_right hab hn1
  have hBle : hB ≤ (s.length : ℚ) - 1 := by
    calc hB ≤ 1 * ((s.length : ℚ) - 1) := mul_le_mul_of_nonneg_right h1 hn1
    _ = (s.length : ℚ) - 1 := one_mul _
  set k1 := ⌊hA⌋.toNat with k1_def
  set k2 := ⌊hB⌋.toNat with k2_def
  have hk2n : k2 < s.length := floorToNat_lt_of_le hB0 hBle hn
  have hk12 : k1 ≤ k2 := floorToNat_le_of_le hABle
  have hk1n : k1 < s.length := Nat.lt_of_le_of_lt hk12 hk2n
  have hk1A : (k1 : ℚ) ≤ hA := floorToNat_le hA0
  have hA1 : hA < (k1 : ℚ) + 1 := lt_floorToNat_add_one hA0
  have hk2B : (k2 : ℚ) ≤ hB := floorToNat_le hB0
  have hab1 : s.getD k1 0 ≤ s.getD (k1 + 1) (s.getD k1 0) := by
    by_cases hr : k1 + 1 < s.length
    · exact sorted_getD_le hs (Nat.le_succ k1) hr 0 (s.getD k1 0)
    · rw [List.getD_eq_default s _ (le_of_not_lt hr)]
  have hab2 : s.getD k2 0 ≤ s.getD (k2 + 1) (s.getD k2 0) := by
    by_cases hr : k2 + 1 < s.length
    · exact sorted_getD_le hs (Nat.le_succ k2) hr 0 (s.getD k2 0)
    · rw [List.getD_eq_default s _ (le_of_not_lt hr)]
  rcases eq_or_lt_of_le hk12 with heq | hlt
  · rw [← heq]
    have hD : (0:ℚ) ≤ s.getD (k1 + 1) (s.getD k1 0) - s.getD k1 0 := by linarith
    have hABk : hA - (k1 : ℚ) ≤ hB - (k1 : ℚ) := by linarith
    have := mul_le_mul_of_nonneg_right hABk hD
    linarith
  · have hk1s : k1 + 1 ≤ k2 := hlt
    have hk11n : k1 + 1 < s.length := Nat.lt_of_le_of_lt hk1s hk2n
    have h1b : s.getD k1 0 + (hA - (k1 : ℚ)) * (s.getD (k1 + 1) (s.getD k1 0) - s.getD k1 0)
        ≤ s.getD (k1 + 1) (s.getD k1 0) := by
      nlinarith [hab1, hk1A, hA1]
    have hmid : s.getD (k1 + 1) (s.getD k1 0) ≤ s.getD k2 0 :=
      sorted_getD_le hs hk1s hk2n _ _
    have h2a : s.getD k2 0
        ≤ s.getD k2 0 + (hB - (k2 : ℚ)) * (s.getD (k2 + 1) (s.getD k2 0) - s.getD k2 0) := by
      nlinarith [hab2, hk2B]
    linarith

/-- The linear-interpolation quantile of a constant list is that
constant. -/
theorem quantileSorted_const {s : List ℚ} {v : ℚ} (hne : s ≠ [])
    (hall : ∀ x ∈ s, x = v) {q : ℚ} (h0 : 0 ≤ q) (h1 : q ≤ 1) :
    quantileSorted s q = v := by
  have hn : 1 ≤ s.length := List.length_pos.2 hne
  have hn1 : (0:ℚ) ≤ (s.length : ℚ) - 1 := by
    have h : (1:ℚ) ≤ (s.length : ℚ) := by exact_mod_cast hn
    linarith
  rw [quantileSorted_eq]
  set hq := q * ((s.length : ℚ) - 1) with hq_def
  have hq0 : 0 ≤ hq := mul_nonneg h0 hn1
  have hqle : hq ≤ (s.length : ℚ) - 1 := by
    calc hq ≤ 1 * ((s.length : ℚ) - 1) := mul_le_mul_of_nonneg_right h1 hn1
    _ = (s.length : ℚ) - 1 := one_mul _
  have hk : ⌊hq⌋.toNat < s.length := floorToNat_lt_of_le hq0 hqle hn
  have ha : s.getD (⌊hq⌋.toNat) 0 = v := by
    rw [List.getD_eq_getElem s 0 hk]
    exact hall _ (List.getElem_mem hk)
  have hb : s.getD (⌊hq⌋.toNat + 1) (s.getD (⌊hq⌋.toNat) 0) = v := by
    by_cases hr : ⌊hq⌋.toNat + 1 < s.length
    · rw [List.getD_eq_getElem s _ hr]
      exact hall _ (List.getElem_mem hr)
    · rw [List.getD_eq_default s _ (le_of_not_lt hr), ha]
  rw [hb, ha]
  ring

theorem sortQ_sorted (l : List ℚ) : (sortQ l).Sorted (· ≤ ·) :=
  List.sorted_insertionSort _ l

theorem sortQ_ne_nil {l : List ℚ} (h : l ≠ []) : sortQ l ≠ [] := by
  intro h0
  apply h
  have hp := List.perm_insertionSort (fun a b : ℚ => a ≤ b) l
  rw [show sortQ l = l.insertionSort (· ≤ ·) from rfl] at h0
  rw [h0] at hp
  exact hp.symm.eq_nil

theorem mem_sortQ {l : List ℚ} {x : ℚ} (h : x ∈ sortQ l) : x ∈ l :=
  (List.perm_insertionSort (fun a b : ℚ => a ≤ b) l).mem_iff.1 h

/-- `Q1 ≤ Q3` on any column with data. -/
theorem colQ1_le_colQ3 {c : List (Option ℚ)} (h : colNonNulls c ≠ []) :
    colQ1 c ≤ colQ3 c := by
  unfold colQ1 colQ3 quantileQ
  exact quantileSorted_mono (sortQ_sorted _) (sortQ_ne_nil h)
    (by norm_num) (by norm_num) (by norm_num)

/-- IQR clipping is the identity on any column whose non-null values are
all equal (in particular on a constant column). -/
theorem clipIQR_const (c : List (Option ℚ)) (k : ℚ)
    (hall : ∀ v ∈ colNonNulls c, v = k) : clipIQR c = c := by
  unfold clipIQR
  by_cases hc : colNonNulls c = []
  · rw [if_pos hc]
  · rw [if_neg hc]
    have hsall : ∀ x ∈ sortQ (colNonNulls c), x = k := fun x hx => hall x (mem_sortQ hx)
    have hq1 : colQ1 c = k :=
      quantileSorted_const (sortQ_ne_nil hc) hsall (by norm_num) (by norm_num)
    have hq3 : colQ3 c = k :=
      quantileSorted_const (sortQ_ne_nil hc) hsall (by norm_num) (by norm_num)
    have hL : lowerFence c = k := by unfold lowerFence; rw [hq1, hq3]; ring
    have hU : upperFence c = k := by unfold upperFence; rw [hq1, hq3]; ring
    rw [hL, hU]
    apply listMapSelf
    intro o ho
    rcases o with _ | v
    · rfl
    · have hv : v = k := hall v (List.mem_filterMap.2 ⟨some v, ho, rfl⟩)
      subst hv
      show some (clipVal v v v) = some v
      unfold clipVal
      rw [max_self, min_self]

/-! ## Claim C5 — IQR clipping and the Tukey fences -/

/-- C5 counterexample: IQR clipping is not idempotent.  On the column
`[0, 0, 0, 100]` one pass clips 100 to 125/2, and a second pass (with the
fences recomputed on the clipped column) clips 125/2 further to 625/16,
so re-clipping an already-clipped column is not a no-op. -/
theorem C5_counterexample :
    clipIQR (clipIQR [some (0:ℚ), some 0, some 0, some 100])
      ≠ clipIQR [some (0:ℚ), some 0, some 0, some 100] := by
  have hf1 : ⌊(1/4 : ℚ) * ((4 : ℚ) - 1)⌋ = 0 := by rw [Int.floor_eq_iff]; norm_num
  have hf1' : ⌊(3/4 : ℚ)⌋ = 0 := by rw [Int.floor_eq_iff]; norm_num
  have hf3 : ⌊(3/4 : ℚ) * ((4 : ℚ) - 1)⌋ = 2 := by rw [Int.floor_eq_iff]; norm_num
  have hf3' : ⌊(9/4 : ℚ)⌋ = 2 := by rw [Int.floor_eq_iff]; norm_num
  have ht0 : Int.toNat 0 = 0 := rfl
  have ht2 : Int.toNat 2 = 2 := rfl
  have q1a : colQ1 [some (0:ℚ), some 0, some 0, some 100] = 0 := by
    norm_num [colQ1, quantileQ, quantileSorted, sortQ, colNonNulls,
      List.insertionSort, List.orderedInsert, hf1, hf1', ht0, List.getD]
  have q3a : colQ3 [some (0:ℚ), some 0, some 0, some 100] = 25 := by
    norm_num [colQ3, quantileQ, quantileSorted, sortQ, colNonNulls,
      List.insertionSort, List.orderedInsert, hf3, hf3', ht2, List.getD]
  have hLa : lowerFence [some (0:ℚ), some 0, some 0, some 100] = -75/2 := by
    unfold lowerFence
    rw [q1a, q3a]
    norm_num
  have hUa : upperFence [some (0:ℚ), some 0, some 0, some 100] = 125/2 := by
    unfold upperFence
    rw [q1a, q3a]
    norm_num
  have e1 : clipIQR [some (0:ℚ), some 0, some 0, some 100]
      = [some (0:ℚ), some 0, some 0, some (125/2)] := by
    unfold clipIQR
    rw [if_neg (by decide)]
    norm_num [hLa, hUa, clipVal, min_def, max_def]
  have q1b : colQ1 [some (0:ℚ), some 0, some 0, some (125/2)] = 0 := by
    norm_num [colQ1, quantileQ, quantileSorted, sortQ, colNonNulls,
      List.insertionSort, List.orderedInsert, hf1, hf1', ht0, List.getD]
  have q3b : colQ3 [some (0:ℚ), some 0, some 0, some (125/2)] = 125/8 := by
    norm_num [colQ3, quantileQ, quantileSorted, sortQ, colNonNulls,
      List.insertionSort, List.orderedInsert, hf3, hf3', ht2, List.getD]
  have hLb : lowerFence [some (0:ℚ), some 0, some 0, some (125/2)] = -375/16 := by
    unfold lowerFence
    rw [q1b, q3b]
    norm_num
  have hUb : upperFence [some (0:ℚ), some 0, some 0, some (125/2)] = 625/16 := by
    unfold upperFence
    rw [q1b, q3b]
    norm_num
  have e2 : clipIQR [some (0:ℚ), some 0, some 0, some (125/2)]
      = [some (0:ℚ), some 0, some 0, some (625/16)] := by
    unfold clipIQR
    rw [if_neg (by decide)]
    norm_num [hLb, hUb, clipVal, min_def, max_def]
  rw [e1, e2]
  simp only [ne_eq, List.cons.injEq, Option.some.injEq]
  norm_num

/-- C5 amended: after one pass of the IQR step every value of the column
lies within the Tukey fences `[Q1 − 1.5·IQR, Q3 + 1.5·IQR]` computed on
the column the step was applied to (the pre-clip column); the stronger
idempotence reading — fences recomputed on the clipped column — is
refuted by `C5_counterexample`. -/
theorem C5_clipped_within_original_fences (c : List (Option ℚ)) (x : ℚ)
    (hx : some x ∈ clipIQR c) :
    lowerFence c ≤ x ∧ x ≤ upperFence c := by
  unfold clipIQR at hx
  by_cases hc : colNonNulls c = []
  · rw [if_pos hc] at hx
    have hmem : x ∈ colNonNulls c := List.mem_filterMap.2 ⟨some x, hx, rfl⟩
    rw [hc] at hmem
    exact absurd hmem (List.not_mem_nil x)
  · rw [if_neg hc] at hx
    rcases List.mem_map.1 hx with ⟨o, ho, hmap⟩
    rcases o with _ | v
    · simp at hmap
    · have hxv : clipVal (lowerFence c) (upperFence c) v = x := by
        simpa using hmap
      have hQ : colQ1 c ≤ colQ3 c := colQ1_le_colQ3 hc
      have hLU : lowerFence c ≤ upperFence c := by
        unfold lowerFence upperFence
        linarith
      constructor
      · rw [← hxv]
        exact le_min hLU (le_max_left _ _)
      · rw [← hxv]
        exact min_le_left _ _

/-- Witness for C5 (amended) at the one-value column `[0]`. -/
theorem C5_clipped_within_original_fences_witness :
    (some (0:ℚ) ∈ clipIQR [some (0:ℚ)]) ∧
      lowerFence [some (0:ℚ)] ≤ 0 ∧ (0:ℚ) ≤ upperFence [some (0:ℚ)] := by
  have hmem : some (0:ℚ) ∈ clipIQR [some (0:ℚ)] := by
    rw [clipIQR_const [some (0:ℚ)] 0 (by decide)]
    simp
  exact ⟨hmem, C5_clipped_within_original_fences [some (0:ℚ)] 0 hmem⟩

/-! ## Claim C6 — zero IQR and constant columns -/

/-- C6 counterexample: a zero interquartile range does not make the IQR
clipping step a no-op.  On `[0, 0, 0, 0, 1]` both quartiles are 0, so
`IQR = 0`, yet clipping collapses the outlier 1 to 0 and the column
changes. -/
theorem C6_counterexample :
    (colQ3 [some (0:ℚ), some 0, some 0, some 0, some 1]
        - colQ1 [some (0:ℚ), some 0, some 0, some 0, some 1] = 0) ∧
      clipIQR [some (0:ℚ), some 0, some 0, some 0, some 1]
        ≠ [some (0:ℚ), some 0, some 0, some 0, some 1] := by
  have hf1 : ⌊(1/4 : ℚ) * ((5 : ℚ) - 1)⌋ = 1 := by rw [Int.floor_eq_iff]; norm_num
  have hf1' : ⌊(1 : ℚ)⌋ = 1 := by rw [Int.floor_eq_iff]; norm_num
  have hf3 : ⌊(3/4 : ℚ) * ((5 : ℚ) - 1)⌋ = 3 := by rw [Int.floor_eq_iff]; norm_num
  have hf3' : ⌊(3 : ℚ)⌋ = 3 := by rw [Int.floor_eq_iff]; norm_num
  have ht1 : Int.toNat 1 = 1 := rfl
  have ht3 : Int.toNat 3 = 3 := rfl
  have q1 : colQ1 [some (0:ℚ), some 0, some 0, some 0, some 1] = 0 := by
    norm_num [colQ1, quantileQ, quantileSorted, sortQ, colNonNulls,
      List.insertionSort, List.orderedInsert, hf1, hf1', ht1, List.getD]
  have q3 : colQ3 [some (0:ℚ), some 0, some 0, some 0, some 1] = 0 := by
    norm_num [colQ3, quantileQ, quantileSorted, sortQ, colNonNulls,
      List.insertionSort, List.orderedInsert, hf3, hf3', ht3, List.getD]
  refine ⟨by rw [q1, q3]; ring, ?_⟩
  have hL : lowerFence [some (0:ℚ), some 0, some 0, some 0, some 1] = 0 := by
    unfold lowerFence
    rw [q1, q3]
    ring
  have hU : upperFence [some (0:ℚ), some 0, some 0, some 0, some 1] = 0 := by
    unfold upperFence
    rw [q1, q3]
    ring
  have e : clipIQR [some (0:ℚ), some 0, some 0, some 0, some 1]
      = [some (0:ℚ), some 0, some 0, some 0, some 0] := by
    unfold clipIQR
    rw [if_neg (by decide)]
    norm_num [hL, hU, clipVal, min_def, max_def]
  rw [e]
  simp only [ne_eq, List.cons.injEq, Option.some.injEq]
  norm_num

/-- C6 amended: the clipping step is a no-op on every column whose
non-null values are all equal — in particular on every constant column,
the case the spec's parenthetical "(constant column)" describes.  A
merely zero IQR is not enough, as `C6_counterexample` shows. -/
theorem C6_constant_column_clip_noop (c : List (Option ℚ)) (k : ℚ)
    (hall : ∀ v ∈ colNonNulls c, v = k) : clipIQR c = c :=
  clipIQR_const c k hall

/-- Witness for C6 (amended) at the constant column `[2, 2]`. -/
theorem C6_constant_column_clip_noop_witness :
    (∀ v ∈ colNonNulls [some (2:ℚ), some 2], v = 2) ∧
      clipIQR [some (2:ℚ), some 2] = [some (2:ℚ), some 2] :=
  ⟨by decide, C6_constant_column_clip_noop _ 2 (by decide)⟩

/-! ## Claim C1 — no nulls in numeric columns after the full pipeline -/

theorem fillMean_complete {c : List (Option ℚ)} (h : colNonNulls c ≠ []) :
    ∀ o ∈ fillMean c, o.isSome = true := by
  unfold fillMean
  rw [if_neg h]
  intro o ho
  rcases List.mem_map.1 ho with ⟨o', _, rfl⟩
  rfl

theorem clipIQR_complete {c : List (Option ℚ)} (h : ∀ o ∈ c, o.isSome = true) :
    ∀ o ∈ clipIQR c, o.isSome = true := by
  unfold clipIQR
  by_cases hc : colNonNulls c = []
  · rw [if_pos hc]
    exact h
  · rw [if_neg hc]
    intro o ho
    rcases List.mem_map.1 ho with ⟨o', ho', rfl⟩
    have hso := h o' ho'
    rcases o' with _ | v
    · simp at hso
    · rfl

theorem applyMask_subset {α : Type} : ∀ (bs : List Bool) (xs : List α) (x : α),
    x ∈ applyMask bs xs → x ∈ xs
  | [], xs, x => by
    intro hx
    simp [applyMask] at hx
  | _ :: _, [], x => by
    intro hx
    simp [applyMask] at hx
  | true :: bs, y :: ys, x => by
    intro hx
    simp only [applyMask, if_pos] at hx
    rcases List.mem_cons.1 hx with rfl | hx
    · exact List.mem_cons_self _ _
    · exact List.mem_cons_of_mem _ (applyMask_subset bs ys x hx)
  | false :: bs, y :: ys, x => by
    intro hx
    simp only [applyMask, Bool.false_eq_true, if_false] at hx
    exact List.mem_cons_of_mem _ (applyMask_subset bs ys x hx)

/-- Every numeric column of a fully cleaned table is entirely non-null,
provided every numeric input column had at least one non-null value. -/
theorem cleaning_main_complete (parse : String → Option String) (t : Table)
    (h : ∀ p ∈ t.numeric, colNonNulls p.2 ≠ []) :
    ∀ p ∈ (cleaning_main parse t).numeric, ∀ o ∈ p.2, o.isSome = true := by
  intro p hp
  simp only [cleaning_main, handle_outliers, handle_missing_values,
    parseDatesTable, renameTable] at hp
  rcases List.mem_map.1 hp with ⟨q2, hq2, rfl⟩
  rcases List.mem_map.1 hq2 with ⟨q1, hq1, rfl⟩
  rcases List.mem_map.1 hq1 with ⟨q0, hq0, rfl⟩
  rcases List.mem_map.1 hq0 with ⟨r, hr, rfl⟩
  have hne : colNonNulls r.2 ≠ [] := h r hr
  have hmasked : ∀ (M : List Bool), ∀ o ∈ applyMask M (fillMean r.2),
      o.isSome = true :=
    fun M o ho => fillMean_complete hne o (applyMask_subset _ _ _ ho)
  intro o ho
  dsimp only at ho
  by_cases hcl : clean_column_name r.1 ∈ outlierColumns
  · rw [if_pos hcl] at ho
    exact clipIQR_complete (hmasked _) o ho
  · rw [if_neg hcl] at ho
    exact hmasked _ o ho

/-- C1 counterexample: an input whose (sole) numeric column is entirely
null comes out of the full pipeline with its nulls intact — the NaN mean
makes `fillna` a no-op, row-dropping only looks at non-numeric columns,
and clipping keeps nulls — so a cleaned output can retain nulls in an
originally-numeric column. -/
theorem C1_counterexample :
    hasNumericNull (cleaning_main (fun _ => none)
      { numeric := [(str2l "x", [none])], cats := [] }) = true := by
  decide

/-- C1 amended: for every cleaned output of the full pipeline whose
originally-numeric columns each contain at least one non-null value, no
null values remain in any originally-numeric column of the output.  (The
unconditional claim fails on entirely-null numeric columns, see
`C1_counterexample`.) -/
theorem C1_no_numeric_nulls_after_cleaning (parse : String → Option String)
    (t : Table) (h : ∀ p ∈ t.numeric, colNonNulls p.2 ≠ []) :
    hasNumericNull (cleaning_main parse t) = false := by
  have hall := cleaning_main_complete parse t h
  unfold hasNumericNull
  rw [List.any_eq_false]
  intro p hp
  rw [Bool.not_eq_true, List.any_eq_false]
  intro o ho
  have hso := hall p hp o ho
  rcases o with _ | v
  · simp at hso
  · simp

/-- Witness for C1 (amended) at a one-column table `[1, null]`. -/
theorem C1_no_numeric_nulls_after_cleaning_witness :
    (∀ p ∈ (Table.mk [(str2l "x", [some (1:ℚ), none])] []).numeric,
        colNonNulls p.2 ≠ []) ∧
      hasNumericNull (cleaning_main (fun _ => none)
        (Table.mk [(str2l "x", [some (1:ℚ), none])] [])) = false :=
  ⟨by decide, C1_no_numeric_nulls_after_cleaning _ _ (by decide)⟩

/-! ## Claim C3 — dashboard filtering and the empty intersection -/

/-- C3, evaluated at a failing input: with the single row
(field "A", well 1, Active, day 5, oil 10, pressure 100) and the filter
(field "B", days 0–10), the filtered frame is empty, and the callback
raises `ValueError` out of `create_insights` (the `idxmax()` of the empty
per-field totals), instead of producing empty chart data and KPI/insight
outputs.  The filter itself is sound — the first conjunct shows the
empty intersection — but the no-exception part of the claim is false on
the code. -/
theorem C3_empty_filter_insights_raise :
    filter_dashboard [DRow.mk "A" 1 "Active" (some 5) 10 100] "B" 0 10 = [] ∧
      update_dashboard [DRow.mk "A" 1 "Active" (some 5) 10 100] "B" 0 10
        = Except.error "attempt to get argmax of an empty sequence" :=
  ⟨rfl, rfl⟩
